import Mathlib

set_option maxRecDepth 10000

/-!
Verification of the in-memory `OrderPlugin` order store of
`src/scripts/pizza_agent_python.py`.

The plugin keeps an insertion-ordered table of orders keyed by string ids
(`current_orders`, a Python dict) together with a counter (`order_counter`),
and exposes four operations: `create_order`, `add_item_to_order`,
`get_order_status` and `complete_order`.  Each operation returns a
human-readable string; errors are reported as strings too, never raised.

Modelling choices:
* Python dict (string-keyed, insertion ordered) → association list
  `List (String × Order)`; assignment to an existing key replaces that entry
  in place, assignment to a fresh key appends at the end.
* Money: the Python code uses binary floats whose values here are always an
  exact whole number of cents (hard-coded two-decimal prices, accumulated by
  addition and integer multiplication), so amounts are embedded as integer
  cents.  `f"{x:.2f}"` becomes `formatMoney`, and the `f"{price}"` rendering
  of a unit price coincides with its two-decimal form for all eleven table
  prices.
* `str.lower()` → `strLower`, per-character ASCII lowercasing, which agrees
  with Python on all inputs made of characters that Python lowercases into
  the ASCII range of the table keys.
* Python `int` → `Int` (arbitrary precision, `quantity` may be negative);
  `range(q)` has `max q 0` iterations, i.e. `Int.toNat`.
-/

/-- Per-character ASCII lowercasing, the embedding of Python `str.lower()`
on the strings this component compares against its ASCII price table. -/
def strLower (s : String) : String := ⟨s.data.map Char.toLower⟩

/-- Renders an exact amount of `cents` the way Python formats the
corresponding float with `:.2f` (sign, dollars, dot, two digits). -/
def formatMoney (cents : Int) : String :=
  (if cents < 0 then "-" else "") ++ Nat.repr (cents.natAbs / 100) ++ "." ++
    (if cents.natAbs % 100 < 10 then "0" else "") ++ Nat.repr (cents.natAbs % 100)

/-- Order id string `f"ORD-{n}"`. -/
def ordId (n : Nat) : String := "ORD-" ++ Nat.repr n

/-- One order record: `{"customer_name": ..., "items": [...], "total": ...}`.
`total` is in cents. -/
structure Order where
  customer_name : String
  items : List String
  total : Int
deriving DecidableEq

/-- The plugin state: the `current_orders` dict (insertion-ordered
association list) and the `order_counter`. -/
structure OrderPlugin where
  current_orders : List (String × Order)
  order_counter : Nat
deriving DecidableEq

/-- The state of a freshly constructed plugin: empty dict, counter `0`. -/
def initPlugin : OrderPlugin := ⟨[], 0⟩

/-- The hard-coded `price_lookup` table of `add_item_to_order`, lowercase
item name to unit price in cents. -/
def price_lookup : List (String × Int) :=
  [("margherita", 1099), ("pepperoni", 1299), ("vegetarian", 1199),
   ("hawaiian", 1399), ("supreme", 1499), ("garlic bread", 499),
   ("caesar salad", 599), ("chicken wings", 899), ("soda", 199),
   ("water", 149), ("beer", 599)]

/-- Dict lookup in the price table. -/
def priceOf (name : String) : Option Int :=
  (price_lookup.find? (fun q => q.1 == name)).map Prod.snd

/-- Dict lookup in `current_orders`. -/
def lookupOrder (s : OrderPlugin) (oid : String) : Option Order :=
  (s.current_orders.find? (fun q => q.1 == oid)).map Prod.snd

/-- Dict assignment `current_orders[oid] = o`: replace the entry for `oid`
in place if present, else append a new entry at the end. -/
def replaceOrder : List (String × Order) → String → Order → List (String × Order)
  | [], oid, o => [(oid, o)]
  | q :: rest, oid, o =>
      if q.1 == oid then (oid, o) :: rest else q :: replaceOrder rest oid o

/-- One pass of the `items_summary` loop of `get_order_status`: bump the
count stored for `it`, or append `(it, 1)` if `it` is new (Python dicts
keep first-seen insertion order). -/
def bumpCount : List (String × Nat) → String → List (String × Nat)
  | [], it => [(it, 1)]
  | q :: rest, it =>
      if q.1 = it then (q.1, q.2 + 1) :: rest else q :: bumpCount rest it

/-- The full `items_summary` aggregation of `get_order_status`. -/
def countsOf (items : List String) : List (String × Nat) :=
  items.foldl bumpCount []

/-- The distinct names of a list in first-seen order (specification-side
description of the key order of `countsOf`). -/
def firstSeen (items : List String) : List String :=
  items.foldl (fun acc it => if it ∈ acc then acc else acc ++ [it]) []

/-- Message of a successful `create_order`. -/
def orderCreatedMsg (name oid : String) : String :=
  "Order created for " ++
    (name ++ (" with order ID: " ++ (oid ++ ". You can now add items to this order.")))

/-- Not-found message of `add_item_to_order`. -/
def orderNotFoundCreateMsg (oid : String) : String :=
  "Order ID " ++ (oid ++ " not found. Please create an order first.")

/-- Not-found message of `get_order_status` and `complete_order`. -/
def orderNotFoundCheckMsg (oid : String) : String :=
  "Order ID " ++ (oid ++ " not found. Please check your order ID.")

/-- Unknown-item message of `add_item_to_order`. -/
def itemNotFoundMsg (name : String) : String :=
  "Item \x27" ++
    (name ++ "\x27 not found in our menu. Please check the menu for available items.")

/-- Confirmation message of a successful `add_item_to_order`. -/
def addedMsg (q : Int) (name : String) (price : Int) (oid : String) (newTotal : Int) : String :=
  "Added " ++
    (Int.repr q ++ ("x " ++
      (name ++ (" ($" ++
        (formatMoney price ++ (" each) to order " ++
          (oid ++ (". Current order total: $" ++ formatMoney newTotal))))))))

/-- Status message of `get_order_status` on an existing order. -/
def statusMsg (oid name : String) (counts : List (String × Nat)) (total : Int) : String :=
  "\n        Order ID: " ++
    (oid ++ ("\n        Customer: " ++
      (name ++ ("\n        Items: " ++
        (String.intercalate ", " (counts.map (fun q => Nat.repr q.2 ++ "x " ++ q.1)) ++
          ("\n        Total: $" ++ (formatMoney total ++ "\n        ")))))))

/-- Completion message of `complete_order` on an existing order. -/
def completionMsg (name oid : String) (total : Int) : String :=
  "\n        Thank you, " ++
    (name ++ ("!\n        \n        Your order (ID: " ++
      (oid ++ (") has been confirmed and is being prepared.\n        Total: $" ++
        (formatMoney total ++
          "\n        \n        Your delicious pizza will be ready in approximately 25-30 minutes.\n        ")))))

/-- `OrderPlugin.create_order`: increment the counter, install a fresh order
under `ORD-{counter}`, return the confirmation message. -/
def create_order (s : OrderPlugin) (customer_name : String) :
    OrderPlugin × String :=
  let counter2 := s.order_counter + 1
  let oid := ordId counter2
  (⟨replaceOrder s.current_orders oid ⟨customer_name, [], 0⟩, counter2⟩,
   orderCreatedMsg customer_name oid)

/-- `OrderPlugin.add_item_to_order`: guard on the order id, then on the
lowercased item name; on success append `item_name` to the item list
`max quantity 0` times (Python `for _ in range(quantity)`), add
`price * quantity` to the total, and return the confirmation. -/
def add_item_to_order (s : OrderPlugin) (order_id item_name : String)
    (quantity : Int) : OrderPlugin × String :=
  match lookupOrder s order_id with
  | none => (s, orderNotFoundCreateMsg order_id)
  | some o =>
    match priceOf (strLower item_name) with
    | none => (s, itemNotFoundMsg item_name)
    | some item_price =>
      let o2 : Order :=
        ⟨o.customer_name, o.items ++ List.replicate quantity.toNat item_name,
         o.total + item_price * quantity⟩
      (⟨replaceOrder s.current_orders order_id o2, s.order_counter⟩,
       addedMsg quantity item_name item_price order_id o2.total)

/-- `OrderPlugin.get_order_status`: guard on the order id, then render the
aggregated item summary.  Reads the state without changing it. -/
def get_order_status (s : OrderPlugin) (order_id : String) : String :=
  match lookupOrder s order_id with
  | none => orderNotFoundCheckMsg order_id
  | some o => statusMsg order_id o.customer_name (countsOf o.items) o.total

/-- `OrderPlugin.complete_order`: guard on the order id, then render the
thank-you message.  Reads the state without changing it (the source keeps
the order in memory and has no status field). -/
def complete_order (s : OrderPlugin) (order_id : String) : String :=
  match lookupOrder s order_id with
  | none => orderNotFoundCheckMsg order_id
  | some o => completionMsg o.customer_name order_id o.total

/-- One call to any of the four plugin operations, with its arguments. -/
inductive Call where
  | create (customer_name : String)
  | addItem (order_id item_name : String) (quantity : Int)
  | getStatus (order_id : String)
  | complete (order_id : String)
deriving DecidableEq

/-- Execute one call: the next state and the returned string. -/
def step (s : OrderPlugin) : Call → OrderPlugin × String
  | Call.create name => create_order s name
  | Call.addItem oid item q => add_item_to_order s oid item q
  | Call.getStatus oid => (s, get_order_status s oid)
  | Call.complete oid => (s, complete_order s oid)

/-- Execute a sequence of calls from a starting state. -/
def run (s : OrderPlugin) (calls : List Call) : OrderPlugin :=
  calls.foldl (fun t c => (step t c).1) s

/-- The counter values assigned by the `create_order` calls of a call
sequence, in call order. -/
def createdNums (s : OrderPlugin) : List Call → List Nat
  | [] => []
  | Call.create name :: rest =>
      (s.order_counter + 1) :: createdNums (step s (Call.create name)).1 rest
  | c :: rest => createdNums (step s c).1 rest

/-- The order ids returned (inside the confirmation messages) by the
`create_order` calls of a call sequence, in call order. -/
def createdIds (s : OrderPlugin) : List Call → List String
  | [] => []
  | Call.create name :: rest =>
      ordId (s.order_counter + 1) :: createdIds (step s (Call.create name)).1 rest
  | c :: rest => createdIds (step s c).1 rest

/-- Specification-side price of a stored item entry: the price-table value
for its (lowercased) name. -/
def entryPrice (it : String) : Int := (priceOf (strLower it)).getD 0

/-- Specification-side recomputed total: the sum of the unit prices of all
entries of an item list. -/
def sumPrices (items : List String) : Int := (items.map entryPrice).sum

/-- The C1 invariant: the running total of every stored order equals the
recomputed sum of the prices of its item entries. -/
def totalsConsistent (s : OrderPlugin) : Prop :=
  ∀ q ∈ s.current_orders, q.2.total = sumPrices q.2.items

/-- The quantity a call passes to `add_item_to_order` (`0` for the other
operations, which take no quantity). -/
def qtyMin : Call → Int
  | Call.addItem _ _ q => q
  | _ => 0

/-- The two failure conditions of the component, per call: a referenced
order id that is not in the store, or a referenced item name whose
lowercase form is not in the price table. -/
def failCond (s : OrderPlugin) : Call → Prop
  | Call.create _ => False
  | Call.addItem oid name _ =>
      lookupOrder s oid = none ∨ priceOf (strLower name) = none
  | Call.getStatus oid => lookupOrder s oid = none
  | Call.complete oid => lookupOrder s oid = none

/-- A returned string is an error report iff it is one of the three
not-found message shapes. -/
def isErrorMsg (msg : String) : Prop :=
  (∃ oid, msg = orderNotFoundCreateMsg oid) ∨
    (∃ oid, msg = orderNotFoundCheckMsg oid) ∨
      (∃ name, msg = itemNotFoundMsg name)

/-! Decimal rendering of counters: `Nat.repr` is injective, hence distinct
counter values give distinct `ORD-` ids. -/

theorem toDigitsCore_zero_fuel (b n : Nat) (ds : List Char) :
    Nat.toDigitsCore b 0 n ds = ds := rfl

theorem toDigitsCore_succ_fuel (b f n : Nat) (ds : List Char) :
    Nat.toDigitsCore b (f + 1) n ds =
      if n / b = 0 then (n % b).digitChar :: ds
      else Nat.toDigitsCore b f (n / b) ((n % b).digitChar :: ds) := rfl

theorem toDigitsCore_acc (f : Nat) : ∀ (n : Nat) (ds : List Char),
    Nat.toDigitsCore 10 f n ds = Nat.toDigitsCore 10 f n [] ++ ds := by
  induction f with
  | zero => intro n ds; rfl
  | succ f ih =>
    intro n ds
    rw [toDigitsCore_succ_fuel, toDigitsCore_succ_fuel]
    by_cases h : n / 10 = 0
    · simp [h]
    · simp only [h, if_false]
      rw [ih (n / 10) ((n % 10).digitChar :: ds), ih (n / 10) [(n % 10).digitChar]]
      simp

theorem toDigitsCore_fuel_irrel (n : Nat) : ∀ (f₁ f₂ : Nat), n < f₁ → n < f₂ →
    Nat.toDigitsCore 10 f₁ n [] = Nat.toDigitsCore 10 f₂ n [] := by
  induction n using Nat.strongRecOn with
  | _ n ih =>
    intro f₁ f₂ h₁ h₂
    match f₁, f₂ with
    | g₁ + 1, g₂ + 1 =>
      rw [toDigitsCore_succ_fuel, toDigitsCore_succ_fuel]
      by_cases h : n / 10 = 0
      · simp [h]
      · simp only [h, if_false]
        have hlt : n / 10 < n := Nat.div_lt_self (by omega) (by omega)
        rw [toDigitsCore_acc g₁, toDigitsCore_acc g₂,
          ih (n / 10) hlt g₁ g₂ (by omega) (by omega)]

/-- Reads a list of decimal digit characters back as the number it denotes. -/
def decimalVal (l : List Char) : Nat :=
  l.foldl (fun a c => a * 10 + (c.toNat - 48)) 0

theorem digitChar_toNat_sub {n : Nat} (h : n < 10) :
    (Nat.digitChar n).toNat - 48 = n := by
  interval_cases n <;> rfl

theorem decimalVal_toDigitsCore (n : Nat) :
    decimalVal (Nat.toDigitsCore 10 (n + 1) n []) = n := by
  induction n using Nat.strongRecOn with
  | _ n ih =>
    rw [toDigitsCore_succ_fuel]
    by_cases h : n / 10 = 0
    · have hn : n < 10 := by omega
      simp [h, decimalVal, digitChar_toNat_sub (Nat.mod_lt n (by omega))]
      omega
    · simp only [h, if_false]
      have hlt : n / 10 < n := Nat.div_lt_self (by omega) (by omega)
      rw [toDigitsCore_acc, toDigitsCore_fuel_irrel (n / 10) n (n / 10 + 1) (by omega) (by omega)]
      unfold decimalVal
      rw [List.foldl_append]
      have hrec : decimalVal (Nat.toDigitsCore 10 (n / 10 + 1) (n / 10) []) = n / 10 := ih (n / 10) hlt
      unfold decimalVal at hrec
      rw [hrec]
      simp [digitChar_toNat_sub (Nat.mod_lt n (by omega))]
      omega

theorem natRepr_inj {a b : Nat} (h : Nat.repr a = Nat.repr b) : a = b := by
  have hd : Nat.toDigits 10 a = Nat.toDigits 10 b := by
    have h2 := congrArg String.data h
    simpa [Nat.repr, List.asString] using h2
  have ha := decimalVal_toDigitsCore a
  have hb := decimalVal_toDigitsCore b
  unfold Nat.toDigits at hd
  rw [hd, hb] at ha
  omega

theorem ordId_inj {a b : Nat} (h : ordId a = ordId b) : a = b := by
  have h2 := congrArg String.data h
  simp only [ordId, String.data_append] at h2
  exact natRepr_inj (String.ext (List.append_cancel_left h2))

/-! Store lemmas. -/

theorem mem_replaceOrder (l : List (String × Order)) (oid : String) (o : Order)
    (q : String × Order) : q ∈ replaceOrder l oid o → q = (oid, o) ∨ q ∈ l := by
  induction l with
  | nil => intro h; simp [replaceOrder] at h; simp [h]
  | cons p rest ih =>
    intro h
    simp only [replaceOrder] at h
    by_cases hp : p.1 = oid
    · simp only [hp, beq_self_eq_true, if_true, List.mem_cons] at h
      rcases h with h | h
      · exact Or.inl h
      · exact Or.inr (List.mem_cons_of_mem p h)
    · rw [if_neg (by simpa using hp)] at h
      rcases List.mem_cons.mp h with h | h
      · exact Or.inr (by simp [h])
      · rcases ih h with h2 | h2
        · exact Or.inl h2
        · exact Or.inr (List.mem_cons_of_mem p h2)

theorem find?_replaceOrder_self (l : List (String × Order)) (oid : String) (o : Order) :
    (replaceOrder l oid o).find? (fun q => q.1 == oid) = some (oid, o) := by
  induction l with
  | nil => simp [replaceOrder, List.find?]
  | cons p rest ih =>
    simp only [replaceOrder]
    by_cases hp : p.1 = oid
    · simp [List.find?, hp]
    · rw [if_neg (by simpa using hp)]
      have hb : (p.1 == oid) = false := by simpa using hp
      simp [List.find?, hb, ih]

theorem lookupOrder_replace_self (l : List (String × Order)) (k : Nat)
    (oid : String) (o : Order) :
    lookupOrder ⟨replaceOrder l oid o, k⟩ oid = some o := by
  simp [lookupOrder, find?_replaceOrder_self]

/-! Counter evolution over calls. -/

theorem step_counter_addItem (s : OrderPlugin) (oid it : String) (q : Int) :
    (step s (Call.addItem oid it q)).1.order_counter = s.order_counter := by
  simp only [step, add_item_to_order]
  cases lookupOrder s oid with
  | none => rfl
  | some o =>
    cases priceOf (strLower it) with
    | none => rfl
    | some p => rfl

theorem createdNums_bounds (calls : List Call) : ∀ s : OrderPlugin,
    (createdNums s calls).Pairwise (· < ·) ∧
      ∀ n ∈ createdNums s calls, s.order_counter < n := by
  induction calls with
  | nil => intro s; simp [createdNums]
  | cons c rest ih =>
    intro s
    cases c with
    | create name =>
      obtain ⟨hp, hb⟩ := ih (step s (Call.create name)).1
      have hc : (step s (Call.create name)).1.order_counter = s.order_counter + 1 := rfl
      rw [hc] at hb
      constructor
      · simp only [createdNums]
        exact List.Pairwise.cons (fun n hn => by have := hb n hn; omega) hp
      · intro n hn
        simp only [createdNums, List.mem_cons] at hn
        rcases hn with rfl | hn
        · omega
        · have := hb n hn; omega
    | addItem oid it q =>
      obtain ⟨hp, hb⟩ := ih (step s (Call.addItem oid it q)).1
      have hc := step_counter_addItem s oid it q
      rw [hc] at hb
      exact ⟨hp, hb⟩
    | getStatus oid =>
      obtain ⟨hp, hb⟩ := ih (step s (Call.getStatus oid)).1
      exact ⟨hp, hb⟩
    | complete oid =>
      obtain ⟨hp, hb⟩ := ih (step s (Call.complete oid)).1
      exact ⟨hp, hb⟩

theorem createdIds_eq_map (calls : List Call) : ∀ s : OrderPlugin,
    createdIds s calls = (createdNums s calls).map ordId := by
  induction calls with
  | nil => intro s; rfl
  | cons c rest ih =>
    intro s
    cases c with
    | create name => simp [createdIds, createdNums, ih]
    | addItem oid it q => simp [createdIds, createdNums, ih]
    | getStatus oid => simp [createdIds, createdNums, ih]
    | complete oid => simp [createdIds, createdNums, ih]

/-! Aggregation lemmas: the `items_summary` loop groups the flat item list
into (name, count) pairs keyed by the distinct names in first-seen order. -/

theorem mem_firstSeen_foldl (l : List String) : ∀ (acc : List String) (x : String),
    (x ∈ l.foldl (fun a it => if it ∈ a then a else a ++ [it]) acc) ↔ x ∈ acc ∨ x ∈ l := by
  induction l with
  | nil => intro acc x; simp
  | cons it l ih =>
    intro acc x
    simp only [List.foldl_cons]
    by_cases hmem : it ∈ acc
    · rw [if_pos hmem, ih]
      constructor
      · rintro (h | h)
        · exact Or.inl h
        · exact Or.inr (List.mem_cons_of_mem it h)
      · rintro (h | h)
        · exact Or.inl h
        · rcases List.mem_cons.mp h with rfl | h
          · exact Or.inl hmem
          · exact Or.inr h
    · rw [if_neg hmem, ih]
      simp only [List.mem_append, List.mem_singleton, List.mem_cons]
      tauto

theorem mem_firstSeen (l : List String) (x : String) : x ∈ firstSeen l ↔ x ∈ l := by
  rw [firstSeen, mem_firstSeen_foldl]
  simp

theorem nodup_firstSeen_foldl (l : List String) : ∀ acc : List String,
    acc.Nodup → (l.foldl (fun a it => if it ∈ a then a else a ++ [it]) acc).Nodup := by
  induction l with
  | nil => intro acc h; simpa using h
  | cons it l ih =>
    intro acc h
    simp only [List.foldl_cons]
    by_cases hmem : it ∈ acc
    · rw [if_pos hmem]; exact ih acc h
    · rw [if_neg hmem]
      refine ih (acc ++ [it]) ?_
      rw [← List.concat_eq_append]
      exact List.Nodup.concat hmem h

theorem nodup_firstSeen (l : List String) : (firstSeen l).Nodup :=
  nodup_firstSeen_foldl l [] List.nodup_nil

theorem firstSeen_append_single (l : List String) (x : String) :
    firstSeen (l ++ [x]) =
      if x ∈ firstSeen l then firstSeen l else firstSeen l ++ [x] := by
  simp [firstSeen, List.foldl_append]

theorem bumpCount_notMem (x : String) : ∀ acc : List (String × Nat),
    (∀ p ∈ acc, p.1 ≠ x) → bumpCount acc x = acc ++ [(x, 1)] := by
  intro acc
  induction acc with
  | nil => intro _; rfl
  | cons q rest ih =>
    intro h
    have hq : q.1 ≠ x := h q (List.mem_cons_self q rest)
    simp only [bumpCount, if_neg hq, List.cons_append, List.cons.injEq, true_and]
    exact ih (fun p hp => h p (List.mem_cons_of_mem q hp))

theorem bumpCount_map_mem (x : String) : ∀ (ks : List String) (c : String → Nat),
    ks.Nodup → x ∈ ks →
    bumpCount (ks.map (fun n => (n, c n))) x =
      ks.map (fun n => (n, c n + if n = x then 1 else 0)) := by
  intro ks
  induction ks with
  | nil => intro c _ hx; simp at hx
  | cons k ks ih =>
    intro c hnd hx
    simp only [List.map_cons, bumpCount]
    by_cases hk : k = x
    · subst hk
      rw [if_pos rfl]
      simp only [List.cons.injEq]
      refine ⟨by simp, (List.map_congr_left ?_).symm⟩
      intro n hn
      have hnk : n ≠ k := by
        intro he; subst he
        exact (List.nodup_cons.mp hnd).1 hn
      rw [if_neg hnk, Nat.add_zero]
    · rw [if_neg hk]
      have hx2 : x ∈ ks := by
        rcases List.mem_cons.mp hx with rfl | h
        · exact absurd rfl hk
        · exact h
      rw [ih c (List.nodup_cons.mp hnd).2 hx2, if_neg hk, Nat.add_zero]

theorem countsOf_append_single (l : List String) (x : String) :
    countsOf (l ++ [x]) = bumpCount (countsOf l) x := by
  simp [countsOf, List.foldl_append]

theorem count_append_single (l : List String) (x n : String) :
    List.count n (l ++ [x]) = List.count n l + if n = x then 1 else 0 := by
  rw [List.count_append]
  by_cases h : n = x
  · subst h; simp [List.count_singleton]
  · have hb : (x == n) = false := by
      simp only [beq_eq_false_iff_ne, ne_eq]
      exact fun he => h he.symm
    simp [List.count_singleton', hb, h]

theorem countsOf_spec (items : List String) :
    countsOf items = (firstSeen items).map (fun n => (n, List.count n items)) := by
  induction items using List.reverseRecOn with
  | nil => rfl
  | append_singleton l x ih =>
    rw [countsOf_append_single, ih, firstSeen_append_single]
    by_cases hx : x ∈ firstSeen l
    · rw [if_pos hx]
      have hxl : x ∈ l := (mem_firstSeen l x).mp hx
      rw [bumpCount_map_mem x (firstSeen l) (fun n => List.count n l) (nodup_firstSeen l) hx]
      refine List.map_congr_left ?_
      intro n hn
      rw [count_append_single]
    · rw [if_neg hx]
      have hxl : x ∉ l := fun h => hx ((mem_firstSeen l x).mpr h)
      rw [bumpCount_notMem x _ ?_]
      · rw [List.map_append]
        congr 1
        · refine List.map_congr_left ?_
          intro n hn
          have hnx : n ≠ x := by
            intro he; subst he
            exact hxl ((mem_firstSeen l n).mp hn)
          rw [count_append_single, if_neg hnx, Nat.add_zero]
        · simp only [List.map_cons, List.map_nil, List.cons.injEq, and_true]
          rw [count_append_single, if_pos rfl,
            List.count_eq_zero.mpr hxl]
      · intro p hp
        rcases List.mem_map.mp hp with ⟨n, hn, rfl⟩
        intro he
        have he2 : n = x := he
        subst he2
        exact hxl ((mem_firstSeen l n).mp hn)

/-! Total/items consistency. -/

theorem sumPrices_append_replicate (items : List String) (n : Nat) (it : String) :
    sumPrices (items ++ List.replicate n it) = sumPrices items + n * entryPrice it := by
  simp [sumPrices, List.map_replicate, List.sum_replicate, nsmul_eq_mul]

theorem totalsConsistent_step (s : OrderPlugin) (c : Call)
    (h : totalsConsistent s) (hq : 0 ≤ qtyMin c) : totalsConsistent (step s c).1 := by
  cases c with
  | create name =>
    intro p hp
    rcases mem_replaceOrder _ _ _ _ hp with rfl | hp2
    · rfl
    · exact h p hp2
  | addItem oid it q =>
    cases hl : lookupOrder s oid with
    | none =>
      simp only [step, add_item_to_order, hl]
      exact h
    | some o =>
      cases hpr : priceOf (strLower it) with
      | none =>
        simp only [step, add_item_to_order, hl, hpr]
        exact h
      | some price =>
        simp only [step, add_item_to_order, hl, hpr]
        intro p hpmem
        rcases mem_replaceOrder _ _ _ _ hpmem with rfl | hmem
        · show o.total + price * q = sumPrices (o.items ++ List.replicate q.toNat it)
          obtain ⟨pair, hfind, hsnd⟩ := Option.map_eq_some'.mp hl
          have ho : o.total = sumPrices o.items := by
            rw [← hsnd]
            exact h pair (List.mem_of_find?_eq_some hfind)
          have hq2 : (0 : Int) ≤ q := hq
          rw [sumPrices_append_replicate, ho]
          unfold entryPrice
          rw [hpr, Option.getD_some, Int.toNat_of_nonneg hq2, mul_comm]
        · exact h p hmem
  | getStatus oid => exact h
  | complete oid => exact h

theorem totalsConsistent_run (calls : List Call) : ∀ s : OrderPlugin,
    totalsConsistent s → (∀ c ∈ calls, 0 ≤ qtyMin c) →
    totalsConsistent (run s calls) := by
  induction calls with
  | nil => intro s h _; exact h
  | cons c rest ih =>
    intro s h hq
    exact ih (step s c).1
      (totalsConsistent_step s c h (hq c (List.mem_cons_self c rest)))
      (fun d hd => hq d (List.mem_cons_of_mem c hd))

/-! Success messages are distinguishable from the error message shapes
by a fixed character position inside their literal prefixes. -/

theorem append_lit_ne (lit₁ r₁ lit₂ r₂ : String) (i : Nat)
    (h₁ : i < lit₁.data.length) (h₂ : i < lit₂.data.length)
    (hne : lit₁.data[i]? ≠ lit₂.data[i]?) : lit₁ ++ r₁ ≠ lit₂ ++ r₂ := by
  intro he
  apply hne
  have hd := congrArg String.data he
  rw [String.data_append, String.data_append] at hd
  calc lit₁.data[i]? = (lit₁.data ++ r₁.data)[i]? := (List.getElem?_append_left h₁).symm
    _ = (lit₂.data ++ r₂.data)[i]? := by rw [hd]
    _ = lit₂.data[i]? := List.getElem?_append_left h₂

theorem addedMsg_not_error (q : Int) (name : String) (price : Int) (oid : String)
    (t : Int) : ¬ isErrorMsg (addedMsg q name price oid t) := by
  rintro (⟨x, hx⟩ | ⟨x, hx⟩ | ⟨x, hx⟩)
  · exact append_lit_ne "Added " _ "Order ID " _ 0 (by decide) (by decide) (by decide) hx
  · exact append_lit_ne "Added " _ "Order ID " _ 0 (by decide) (by decide) (by decide) hx
  · exact append_lit_ne "Added " _ "Item \x27" _ 0 (by decide) (by decide) (by decide) hx

theorem orderCreatedMsg_not_error (name oid : String) :
    ¬ isErrorMsg (orderCreatedMsg name oid) := by
  rintro (⟨x, hx⟩ | ⟨x, hx⟩ | ⟨x, hx⟩)
  · exact append_lit_ne "Order created for " _ "Order ID " _ 6
      (by decide) (by decide) (by decide) hx
  · exact append_lit_ne "Order created for " _ "Order ID " _ 6
      (by decide) (by decide) (by decide) hx
  · exact append_lit_ne "Order created for " _ "Item \x27" _ 0
      (by decide) (by decide) (by decide) hx

theorem statusMsg_not_error (oid name : String) (counts : List (String × Nat))
    (t : Int) : ¬ isErrorMsg (statusMsg oid name counts t) := by
  rintro (⟨x, hx⟩ | ⟨x, hx⟩ | ⟨x, hx⟩)
  · exact append_lit_ne "\n        Order ID: " _ "Order ID " _ 0
      (by decide) (by decide) (by decide) hx
  · exact append_lit_ne "\n        Order ID: " _ "Order ID " _ 0
      (by decide) (by decide) (by decide) hx
  · exact append_lit_ne "\n        Order ID: " _ "Item \x27" _ 0
      (by decide) (by decide) (by decide) hx

theorem completionMsg_not_error (name oid : String) (t : Int) :
    ¬ isErrorMsg (completionMsg name oid t) := by
  rintro (⟨x, hx⟩ | ⟨x, hx⟩ | ⟨x, hx⟩)
  · exact append_lit_ne "\n        Thank you, " _ "Order ID " _ 0
      (by decide) (by decide) (by decide) hx
  · exact append_lit_ne "\n        Thank you, " _ "Order ID " _ 0
      (by decide) (by decide) (by decide) hx
  · exact append_lit_ne "\n        Thank you, " _ "Item \x27" _ 0
      (by decide) (by decide) (by decide) hx

/-! Claim theorems. -/

/-- C1 (counterexample): the claimed invariant quantifies over calls with any
arguments, but `add_item_to_order` with quantity `-1` subtracts the unit
price from the total while `range(-1)` appends nothing to the item list, so
after `create_order("A")` and `add_item_to_order("ORD-1", "soda", -1)` the
stored total is `-1.99` while the item list is empty (price sum `0`). -/
theorem totals_invariant_fails_on_negative_quantity :
    ¬ totalsConsistent
        (run initPlugin [Call.create "A", Call.addItem "ORD-1" "soda" (-1)]) := by
  intro h
  have hm : (("ORD-1", (⟨"A", [], -199⟩ : Order)) : String × Order)
      ∈ (run initPlugin
          [Call.create "A", Call.addItem "ORD-1" "soda" (-1)]).current_orders := by
    decide
  exact absurd (h _ hm) (by decide)

/-- C1 (amended): at every state reachable by a sequence of calls in which
every `add_item_to_order` call has nonnegative quantity, the `total` of
every stored order equals the sum of the price-table unit prices of the
entries of its `items` list. -/
theorem order_totals_consistent_of_nonneg_quantities (calls : List Call)
    (h : ∀ c ∈ calls, 0 ≤ qtyMin c) : totalsConsistent (run initPlugin calls) :=
  totalsConsistent_run calls initPlugin
    (by intro q hq; simp [initPlugin] at hq) h

/-- Witness for the amended C1 theorem on a six-call concrete trace. -/
theorem order_totals_consistent_of_nonneg_quantities_witness :
    (∀ c ∈ [Call.create "Alice", Call.addItem "ORD-1" "Pepperoni" 2,
        Call.addItem "ORD-2" "soda" 3, Call.addItem "ORD-1" "Nachos" 1,
        Call.getStatus "ORD-1", Call.complete "ORD-1"], 0 ≤ qtyMin c)
    ∧ totalsConsistent (run initPlugin
        [Call.create "Alice", Call.addItem "ORD-1" "Pepperoni" 2,
         Call.addItem "ORD-2" "soda" 3, Call.addItem "ORD-1" "Nachos" 1,
         Call.getStatus "ORD-1", Call.complete "ORD-1"]) :=
  ⟨by decide, order_totals_consistent_of_nonneg_quantities _ (by decide)⟩

/-- C2 (counterexample): with quantity `-1` on an order holding one Soda,
`add_item_to_order` returns the ordinary confirmation string and changes
the total by `price * (-1)`, but the item list is NOT adjusted at all:
it still holds exactly one `"Soda"` entry, refuting the claim that the
item list is silently under-adjusted. -/
theorem addItem_negative_quantity_leaves_items_unchanged :
    let s := run initPlugin [Call.create "A", Call.addItem "ORD-1" "Soda" 1]
    let r := add_item_to_order s "ORD-1" "Soda" (-1)
    r.2 = "Added -1x Soda ($1.99 each) to order ORD-1. Current order total: $0.00"
    ∧ (lookupOrder s "ORD-1").map Order.items = some ["Soda"]
    ∧ (lookupOrder r.1 "ORD-1").map Order.items = some ["Soda"]
    ∧ (lookupOrder s "ORD-1").map Order.total = some 199
    ∧ (lookupOrder r.1 "ORD-1").map Order.total = some 0 := by
  decide

/-- C2 (amended): zero or negative quantity is not rejected: the call
returns the ordinary confirmation string and the total silently changes by
`unit_price * quantity`, while the item list is left unchanged (it gains
`max quantity 0 = 0` entries). -/
theorem addItem_nonpositive_quantity_not_rejected (s : OrderPlugin)
    (oid name : String) (q : Int) (o : Order) (price : Int)
    (hq : q ≤ 0) (h : lookupOrder s oid = some o)
    (hp : priceOf (strLower name) = some price) :
    (add_item_to_order s oid name q).2 = addedMsg q name price oid (o.total + price * q)
    ∧ lookupOrder (add_item_to_order s oid name q).1 oid
        = some ⟨o.customer_name, o.items, o.total + price * q⟩ := by
  have ht : q.toNat = 0 := Int.toNat_eq_zero.mpr hq
  constructor
  · simp [add_item_to_order, h, hp]
  · have h1 : (add_item_to_order s oid name q).1
        = ⟨replaceOrder s.current_orders oid
            ⟨o.customer_name, o.items ++ List.replicate q.toNat name,
             o.total + price * q⟩, s.order_counter⟩ := by
      simp [add_item_to_order, h, hp]
    rw [h1, ht, List.replicate_zero, List.append_nil]
    exact lookupOrder_replace_self s.current_orders s.order_counter oid _

/-- Witness for the amended C2 theorem: quantity `-2` on a fresh order. -/
theorem addItem_nonpositive_quantity_not_rejected_witness :
    (add_item_to_order (run initPlugin [Call.create "B"]) "ORD-1" "Soda" (-2)).2
      = addedMsg (-2) "Soda" 199 "ORD-1" (0 + 199 * (-2))
    ∧ lookupOrder
        (add_item_to_order (run initPlugin [Call.create "B"]) "ORD-1" "Soda" (-2)).1
        "ORD-1" = some ⟨"B", [], 0 + 199 * (-2)⟩ :=
  addItem_nonpositive_quantity_not_rejected
    (run initPlugin [Call.create "B"]) "ORD-1" "Soda" (-2) ⟨"B", [], 0⟩ 199
    (by decide) (by decide) (by decide)

/-- C3: for every call sequence, the ids returned by the `create_order`
calls are the `ORD-`-prefixed decimal renderings of the counter values
assigned in turn; those counter values are strictly increasing in
assignment order, the id strings are pairwise distinct (never reused), and
each `create_order` confirmation message carries exactly the id
`ORD-{incremented counter}`. -/
theorem create_order_ids_distinct_monotone (calls : List Call) :
    createdIds initPlugin calls = (createdNums initPlugin calls).map ordId
    ∧ (createdNums initPlugin calls).Pairwise (· < ·)
    ∧ (createdIds initPlugin calls).Pairwise (· ≠ ·)
    ∧ ∀ (s : OrderPlugin) (name : String),
        (create_order s name).2 = orderCreatedMsg name (ordId (s.order_counter + 1)) := by
  refine ⟨createdIds_eq_map calls initPlugin,
    (createdNums_bounds calls initPlugin).1, ?_, fun s name => rfl⟩
  rw [createdIds_eq_map]
  exact List.Pairwise.map ordId
    (fun a b hab he => absurd (ordId_inj he) (Nat.ne_of_lt hab))
    (createdNums_bounds calls initPlugin).1

/-- C5: `add_item_to_order` with an order id not in the store returns the
not-found message and returns the store completely unchanged. -/
theorem addItem_unknown_order_id_unchanged (s : OrderPlugin) (oid name : String)
    (q : Int) (h : lookupOrder s oid = none) :
    add_item_to_order s oid name q = (s, orderNotFoundCreateMsg oid) := by
  simp [add_item_to_order, h]

/-- Witness for C5 at the empty store. -/
theorem addItem_unknown_order_id_unchanged_witness :
    add_item_to_order initPlugin "ORD-1" "soda" 2
      = (initPlugin, orderNotFoundCreateMsg "ORD-1") :=
  addItem_unknown_order_id_unchanged initPlugin "ORD-1" "soda" 2 (by decide)

/-- C6: `add_item_to_order` on an existing order with an item whose
lowercased name is not a price-table key returns the unknown-item message
and returns the store completely unchanged. -/
theorem addItem_unknown_item_unchanged (s : OrderPlugin) (oid name : String)
    (q : Int) (o : Order) (h : lookupOrder s oid = some o)
    (hp : priceOf (strLower name) = none) :
    add_item_to_order s oid name q = (s, itemNotFoundMsg name) := by
  simp [add_item_to_order, h, hp]

/-- Witness for C6: item `"Sushi"` on a one-order store. -/
theorem addItem_unknown_item_unchanged_witness :
    add_item_to_order (run initPlugin [Call.create "A"]) "ORD-1" "Sushi" 1
      = (run initPlugin [Call.create "A"], itemNotFoundMsg "Sushi") :=
  addItem_unknown_item_unchanged (run initPlugin [Call.create "A"])
    "ORD-1" "Sushi" 1 ⟨"A", [], 0⟩ (by decide) (by decide)

/-- C9: `create_order` succeeds for every customer name (the empty string
included), installing a fresh order with empty items and zero total under
the new id and returning the confirmation message; and immediately after
`create_order("Alice")` the status report shows customer Alice, an empty
item summary and total `$0.00`. -/
theorem create_order_always_succeeds :
    (∀ (s : OrderPlugin) (name : String),
       lookupOrder (create_order s name).1 (ordId (s.order_counter + 1))
           = some ⟨name, [], 0⟩
       ∧ (create_order s name).2 = orderCreatedMsg name (ordId (s.order_counter + 1)))
    ∧ get_order_status (run initPlugin [Call.create "Alice"]) "ORD-1" =
        "\n        Order ID: ORD-1\n        Customer: Alice\n        Items: \n        Total: $0.00\n        " := by
  refine ⟨fun s name => ⟨?_, rfl⟩, by decide⟩
  exact lookupOrder_replace_self s.current_orders (s.order_counter + 1)
    (ordId (s.order_counter + 1)) ⟨name, [], 0⟩

/-- C4: the price table has exactly eleven entries; `add_item_to_order`
looks the item up by its lowercased name (so any casing of a table item
succeeds and is charged the lowercase entry price, and success is exactly
membership of the lowercased name among the table keys); and the status
aggregation groups the flat stored item list into (name, count) pairs
keyed by the distinct stored names (exactly as stored) in first-seen
insertion order. -/
theorem addItem_case_insensitive_and_status_groups_first_seen :
    price_lookup.length = 11
    ∧ (∀ (s : OrderPlugin) (oid name : String) (q : Int) (o : Order) (price : Int),
        lookupOrder s oid = some o → priceOf (strLower name) = some price →
        (add_item_to_order s oid name q).2 = addedMsg q name price oid (o.total + price * q))
    ∧ (∀ name : String,
        (priceOf (strLower name)).isSome ↔ strLower name ∈ price_lookup.map Prod.fst)
    ∧ (∀ items : List String,
        countsOf items = (firstSeen items).map (fun n => (n, List.count n items)))
    ∧ (∀ items : List String, (firstSeen items).Nodup)
    ∧ (∀ (items : List String) (x : String), x ∈ firstSeen items ↔ x ∈ items)
    ∧ (∀ (s : OrderPlugin) (oid : String) (o : Order), lookupOrder s oid = some o →
        get_order_status s oid = statusMsg oid o.customer_name (countsOf o.items) o.total) := by
  refine ⟨rfl, ?_, ?_, countsOf_spec, nodup_firstSeen, mem_firstSeen, ?_⟩
  · intro s oid name q o price h hp
    simp [add_item_to_order, h, hp]
  · intro name
    constructor
    · intro hs
      cases hf : List.find? (fun q => q.1 == strLower name) price_lookup with
      | none => rw [priceOf, hf] at hs; simp at hs
      | some pair =>
        have hpred := List.find?_some hf
        exact List.mem_map.mpr ⟨pair, List.mem_of_find?_eq_some hf, by simpa using hpred⟩
    · intro hm
      cases hf : List.find? (fun q => q.1 == strLower name) price_lookup with
      | some pair => simp [priceOf, hf]
      | none =>
        exfalso
        rcases List.mem_map.mp hm with ⟨pair, hmem, hfst⟩
        have hnp := List.find?_eq_none.mp hf pair hmem
        simp [hfst] at hnp
  · intro s oid o h
    simp [get_order_status, h]

/-- Witness for C4: a mixed-casing add charged the lowercase price, the
aggregation equation at a concrete list, and a concrete status render. -/
theorem addItem_case_insensitive_and_status_groups_first_seen_witness :
    (add_item_to_order (run initPlugin [Call.create "A"]) "ORD-1" "ChIcKeN WiNgS" 1).2
      = addedMsg 1 "ChIcKeN WiNgS" 899 "ORD-1" (0 + 899 * 1)
    ∧ countsOf ["Soda", "Water", "Soda"]
      = (firstSeen ["Soda", "Water", "Soda"]).map
          (fun n => (n, List.count n ["Soda", "Water", "Soda"]))
    ∧ get_order_status (run initPlugin [Call.create "A"]) "ORD-1"
      = statusMsg "ORD-1" "A" (countsOf ([] : List String)) 0 :=
  ⟨addItem_case_insensitive_and_status_groups_first_seen.2.1
      (run initPlugin [Call.create "A"]) "ORD-1" "ChIcKeN WiNgS" 1 ⟨"A", [], 0⟩ 899
      (by decide) (by decide),
   addItem_case_insensitive_and_status_groups_first_seen.2.2.2.1 ["Soda", "Water", "Soda"],
   addItem_case_insensitive_and_status_groups_first_seen.2.2.2.2.2.2
      (run initPlugin [Call.create "A"]) "ORD-1" ⟨"A", [], 0⟩ (by decide)⟩

/-- C7: `complete_order` on an existing order returns the thank-you message
embedding the customer name and the exact current total formatted to two
decimals, and changes nothing: the state after the call is the same store,
the order is still retrievable, and a subsequent `get_order_status` renders
it unchanged. -/
theorem complete_order_renders_total_and_preserves_store (s : OrderPlugin)
    (oid : String) (o : Order) (h : lookupOrder s oid = some o) :
    complete_order s oid = completionMsg o.customer_name oid o.total
    ∧ (∃ pre mid post : String, complete_order s oid
        = pre ++ (o.customer_name ++ (mid ++ (formatMoney o.total ++ post))))
    ∧ (step s (Call.complete oid)).1 = s
    ∧ lookupOrder (step s (Call.complete oid)).1 oid = some o
    ∧ get_order_status (step s (Call.complete oid)).1 oid
        = statusMsg oid o.customer_name (countsOf o.items) o.total := by
  refine ⟨by simp [complete_order, h], ?_, rfl, h, by simp [step, get_order_status, h]⟩
  refine ⟨"\n        Thank you, ",
    "!\n        \n        Your order (ID: " ++
      (oid ++ ") has been confirmed and is being prepared.\n        Total: $"),
    "\n        \n        Your delicious pizza will be ready in approximately 25-30 minutes.\n        ",
    ?_⟩
  simp [complete_order, h, completionMsg, String.append_assoc]

/-- Witness for C7 on a one-order store with a Pepperoni ×2 order. -/
theorem complete_order_renders_total_and_preserves_store_witness :
    complete_order (run initPlugin [Call.create "Bob", Call.addItem "ORD-1" "Pepperoni" 2])
        "ORD-1" = completionMsg "Bob" "ORD-1" 2598
    ∧ (∃ pre mid post : String,
        complete_order (run initPlugin
            [Call.create "Bob", Call.addItem "ORD-1" "Pepperoni" 2]) "ORD-1"
          = pre ++ ("Bob" ++ (mid ++ (formatMoney 2598 ++ post))))
    ∧ (step (run initPlugin [Call.create "Bob", Call.addItem "ORD-1" "Pepperoni" 2])
        (Call.complete "ORD-1")).1
      = run initPlugin [Call.create "Bob", Call.addItem "ORD-1" "Pepperoni" 2]
    ∧ lookupOrder (step (run initPlugin
          [Call.create "Bob", Call.addItem "ORD-1" "Pepperoni" 2])
          (Call.complete "ORD-1")).1 "ORD-1"
      = some ⟨"Bob", ["Pepperoni", "Pepperoni"], 2598⟩
    ∧ get_order_status (step (run initPlugin
          [Call.create "Bob", Call.addItem "ORD-1" "Pepperoni" 2])
          (Call.complete "ORD-1")).1 "ORD-1"
      = statusMsg "ORD-1" "Bob" (countsOf ["Pepperoni", "Pepperoni"]) 2598 := by
  have h := complete_order_renders_total_and_preserves_store
    (run initPlugin [Call.create "Bob", Call.addItem "ORD-1" "Pepperoni" 2])
    "ORD-1" ⟨"Bob", ["Pepperoni", "Pepperoni"], 2598⟩ (by decide)
  exact h

/-- C8: on a fresh (empty, zero-total) order, two `add_item_to_order` calls
for `"Soda"` with quantity 1 each accumulate both the quantity and the
total: the stored order holds two `"Soda"` entries and 398 cents, the
status aggregation reports `("Soda", 2)` — rendered `2x Soda` — and the
total renders as `3.98`. -/
theorem addItem_same_item_twice_accumulates (s : OrderPlugin) (oid cname : String)
    (h : lookupOrder s oid = some ⟨cname, [], 0⟩) :
    lookupOrder (add_item_to_order (add_item_to_order s oid "Soda" 1).1 oid "Soda" 1).1 oid
      = some ⟨cname, ["Soda", "Soda"], 398⟩
    ∧ countsOf ["Soda", "Soda"] = [("Soda", 2)]
    ∧ get_order_status
        (add_item_to_order (add_item_to_order s oid "Soda" 1).1 oid "Soda" 1).1 oid
      = statusMsg oid cname [("Soda", 2)] 398
    ∧ String.intercalate ", "
        ([("Soda", 2)].map (fun q => Nat.repr q.2 ++ "x " ++ q.1)) = "2x Soda"
    ∧ formatMoney 398 = "3.98" := by
  have hp : priceOf (strLower "Soda") = some 199 := rfl
  obtain ⟨t, ht⟩ : ∃ t, (add_item_to_order s oid "Soda" 1).1 = t := ⟨_, rfl⟩
  have h2 : lookupOrder t oid = some ⟨cname, ["Soda"], 199⟩ := by
    rw [← ht]
    have h1 : (add_item_to_order s oid "Soda" 1).1
        = ⟨replaceOrder s.current_orders oid ⟨cname, ["Soda"], 199⟩,
           s.order_counter⟩ := by
      simp [add_item_to_order, h, hp]
    rw [h1]
    exact lookupOrder_replace_self s.current_orders s.order_counter oid _
  have h3 : (add_item_to_order t oid "Soda" 1).1
      = ⟨replaceOrder t.current_orders oid ⟨cname, ["Soda", "Soda"], 398⟩,
         t.order_counter⟩ := by
    simp [add_item_to_order, h2, hp]
  have h4 : lookupOrder (add_item_to_order t oid "Soda" 1).1 oid
      = some ⟨cname, ["Soda", "Soda"], 398⟩ := by
    rw [h3]
    exact lookupOrder_replace_self t.current_orders t.order_counter oid _
  rw [ht]
  refine ⟨h4, rfl, ?_, rfl, rfl⟩
  have h5 : get_order_status (add_item_to_order t oid "Soda" 1).1 oid
      = statusMsg oid cname (countsOf ["Soda", "Soda"]) 398 := by
    simp [get_order_status, h4]
  rw [h5]
  rfl

/-- Witness for C8 right after `create_order("Bob")`. -/
theorem addItem_same_item_twice_accumulates_witness :
    lookupOrder (add_item_to_order
        (add_item_to_order (run initPlugin [Call.create "Bob"]) "ORD-1" "Soda" 1).1
        "ORD-1" "Soda" 1).1 "ORD-1"
      = some ⟨"Bob", ["Soda", "Soda"], 398⟩
    ∧ countsOf ["Soda", "Soda"] = [("Soda", 2)]
    ∧ get_order_status (add_item_to_order
        (add_item_to_order (run initPlugin [Call.create "Bob"]) "ORD-1" "Soda" 1).1
        "ORD-1" "Soda" 1).1 "ORD-1"
      = statusMsg "ORD-1" "Bob" [("Soda", 2)] 398
    ∧ String.intercalate ", "
        ([("Soda", 2)].map (fun q => Nat.repr q.2 ++ "x " ++ q.1)) = "2x Soda"
    ∧ formatMoney 398 = "3.98" :=
  addItem_same_item_twice_accumulates (run initPlugin [Call.create "Bob"])
    "ORD-1" "Bob" (by decide)

/-- C10: every operation is total — for every state and every call `step`
returns a next state and a message string — and the returned message is of
an error shape exactly when one of the two failure conditions of the component
(unknown order id; item name not in the price table) holds, so failures
surface only in the returned text, never as a distinguishable error value
or an exception. -/
theorem plugin_ops_total_and_errors_only_in_text (s : OrderPlugin) (c : Call) :
    ∃ (s2 : OrderPlugin) (msg : String),
      step s c = (s2, msg) ∧ (isErrorMsg msg ↔ failCond s c) := by
  cases c with
  | create name =>
    refine ⟨(create_order s name).1, (create_order s name).2, rfl, ?_⟩
    simp only [failCond, iff_false]
    exact orderCreatedMsg_not_error name (ordId (s.order_counter + 1))
  | addItem oid it q =>
    cases hl : lookupOrder s oid with
    | none =>
      refine ⟨s, orderNotFoundCreateMsg oid, by simp [step, add_item_to_order, hl], ?_⟩
      exact ⟨fun _ => Or.inl hl, fun _ => Or.inl ⟨oid, rfl⟩⟩
    | some o =>
      cases hpr : priceOf (strLower it) with
      | none =>
        refine ⟨s, itemNotFoundMsg it, by simp [step, add_item_to_order, hl, hpr], ?_⟩
        exact ⟨fun _ => Or.inr hpr, fun _ => Or.inr (Or.inr ⟨it, rfl⟩)⟩
      | some price =>
        refine ⟨⟨replaceOrder s.current_orders oid
            ⟨o.customer_name, o.items ++ List.replicate q.toNat it,
             o.total + price * q⟩, s.order_counter⟩,
          addedMsg q it price oid (o.total + price * q),
          by simp [step, add_item_to_order, hl, hpr], ?_⟩
        constructor
        · intro he
          exact absurd he (addedMsg_not_error q it price oid (o.total + price * q))
        · rintro (h2 | h2)
          · rw [hl] at h2; simp at h2
          · rw [hpr] at h2; simp at h2
  | getStatus oid =>
    cases hl : lookupOrder s oid with
    | none =>
      refine ⟨s, orderNotFoundCheckMsg oid, by simp [step, get_order_status, hl], ?_⟩
      exact ⟨fun _ => hl, fun _ => Or.inr (Or.inl ⟨oid, rfl⟩)⟩
    | some o =>
      refine ⟨s, statusMsg oid o.customer_name (countsOf o.items) o.total,
        by simp [step, get_order_status, hl], ?_⟩
      constructor
      · intro he
        exact absurd he
          (statusMsg_not_error oid o.customer_name (countsOf o.items) o.total)
      · intro h2
        have h3 : lookupOrder s oid = none := h2
        rw [hl] at h3
        simp at h3
  | complete oid =>
    cases hl : lookupOrder s oid with
    | none =>
      refine ⟨s, orderNotFoundCheckMsg oid, by simp [step, complete_order, hl], ?_⟩
      exact ⟨fun _ => hl, fun _ => Or.inr (Or.inl ⟨oid, rfl⟩)⟩
    | some o =>
      refine ⟨s, completionMsg o.customer_name oid o.total,
        by simp [step, complete_order, hl], ?_⟩
      constructor
      · intro he
        exact absurd he (completionMsg_not_error o.customer_name oid o.total)
      · intro h2
        have h3 : lookupOrder s oid = none := h2
        rw [hl] at h3
        simp at h3
